import Mathlib

/-!
Shallow embedding of the persistence core of the xyqo backend, translated from
the schema in src/infra/init.sql: the `demo_sessions` table (the SessionLedger),
the `extraction_cache` table (the CacheStore), the `quality_metrics` table
(the DailyMetrics store), the `daily_stats` view (the MetricsAggregator) and the
`cleanup_old_data` function (the RetentionManager).

Timestamps are integers counting seconds; `DATE(t)` is floor division by 86400.
SQL `FLOAT` averages are modelled exactly over the rationals; SQL `NULL` is
`Option.none`. Tables are lists of rows; the UNIQUE constraints of the schema
become explicit checks in the modelled operations.
-/

/-- A row of the `demo_sessions` table (src/infra/init.sql, lines 8-23).
Column types follow the schema: `session_id VARCHAR(16) UNIQUE NOT NULL`,
`file_size INTEGER NOT NULL`, nullable `file_hash`, `quality_score`,
`latency_ms`, `error_message`, `ip_address`, `user_agent`. -/
structure DemoSession where
  session_id : String
  file_name : String
  file_size : ℤ
  file_hash : Option String
  extraction_success : Bool
  jira_ticket_created : Bool
  jira_ticket_key : Option String
  quality_score : Option ℚ
  latency_ms : Option ℤ
  error_message : Option String
  ip_address : Option String
  user_agent : Option String
  created_at : ℤ
  deriving DecidableEq

/-- A row of the `extraction_cache` table (src/infra/init.sql, lines 32-40):
`file_hash VARCHAR(64) UNIQUE NOT NULL`, `extraction_result JSONB NOT NULL`
(kept verbatim as an opaque string), nullable `confidence_score`,
`created_at`, `accessed_at`, and `access_count INTEGER DEFAULT 1`. -/
structure CacheEntry where
  file_hash : String
  extraction_result : String
  confidence_score : Option ℚ
  created_at : ℤ
  accessed_at : ℤ
  access_count : ℕ
  deriving DecidableEq

/-- A row of the `quality_metrics` table (src/infra/init.sql, lines 46-56). -/
structure QualityMetricsRow where
  date : ℤ
  total_extractions : ℕ
  successful_extractions : ℕ
  avg_confidence_score : Option ℚ
  avg_latency_ms : Option ℚ
  jira_tickets_created : ℕ
  total_cost_eur : ℚ
  created_at : ℤ
  deriving DecidableEq

/-- A row of the `daily_stats` view (src/infra/init.sql, lines 61-71). -/
structure DailyStatsRow where
  date : ℤ
  total_sessions : ℕ
  successful_extractions : ℕ
  jira_tickets : ℕ
  avg_quality : Option ℚ
  avg_latency_ms : Option ℚ
  deriving DecidableEq

/-- The persisted state: the three tables of the schema. -/
structure DbState where
  sessions : List DemoSession
  cache : List CacheEntry
  metrics : List QualityMetricsRow
  deriving DecidableEq

/-- `DATE(t)` for a timestamp in seconds: the calendar day number. -/
def dateOf (t : ℤ) : ℤ := t.ediv 86400

/-- `INTERVAL '30 days'` in seconds. -/
def thirtyDays : ℤ := 30 * 86400

/-- `INTERVAL '7 days'` in seconds. -/
def sevenDays : ℤ := 7 * 86400

/-- `INTERVAL '1 year'` in seconds (365 days; the model fixes the calendar
year of the SQL interval to its common length). -/
def oneYear : ℤ := 365 * 86400

/-- `cleanup_old_data` (src/infra/init.sql, lines 74-88): deletes
`demo_sessions` rows with `created_at` older than 30 days, `extraction_cache`
rows with `accessed_at` older than 7 days, and `quality_metrics` rows with
`created_at` older than 1 year. `DELETE WHERE c` keeps the rows with `¬ c`. -/
def cleanup_old_data (now : ℤ) (db : DbState) : DbState :=
  { sessions := db.sessions.filter fun s => !decide (s.created_at < now - thirtyDays)
    cache := db.cache.filter fun e => !decide (e.accessed_at < now - sevenDays)
    metrics := db.metrics.filter fun m => !decide (m.created_at < now - oneYear) }

/-- SQL `AVG` over the non-null rationals of a column: `NULL` on the empty
multiset, otherwise the exact mean. -/
def avgRat (xs : List ℚ) : Option ℚ :=
  if xs.isEmpty then none else some (xs.sum / xs.length)

/-- SQL `AVG` over the non-null integers of a column (exact, as `numeric`). -/
def avgInt (xs : List ℤ) : Option ℚ :=
  if xs.isEmpty then none else some ((xs.sum : ℚ) / (xs.length : ℚ))

/-- The `GROUP BY DATE(created_at)` group of day `d`. -/
def sessionsOn (d : ℤ) (l : List DemoSession) : List DemoSession :=
  l.filter fun s => decide (dateOf s.created_at = d)

/-- One row of the `daily_stats` view for day `d` (src/infra/init.sql,
lines 61-71): `COUNT(*)`, `COUNT(*) FILTER (WHERE extraction_success)`,
`COUNT(*) FILTER (WHERE jira_ticket_created)`, `AVG(quality_score) FILTER
(WHERE quality_score IS NOT NULL)`, `AVG(latency_ms)`. -/
def statsFor (l : List DemoSession) (d : ℤ) : DailyStatsRow :=
  { date := d
    total_sessions := (sessionsOn d l).length
    successful_extractions := ((sessionsOn d l).filter fun s => s.extraction_success).length
    jira_tickets := ((sessionsOn d l).filter fun s => s.jira_ticket_created).length
    avg_quality := avgRat ((sessionsOn d l).filterMap fun s => s.quality_score)
    avg_latency_ms := avgInt ((sessionsOn d l).filterMap fun s => s.latency_ms) }

/-- The distinct `DATE(created_at)` values of the ledger, `ORDER BY date DESC`. -/
def statDates (l : List DemoSession) : List ℤ :=
  ((l.map fun s => dateOf s.created_at).dedup).insertionSort fun a b => b ≤ a

/-- The `daily_stats` view (src/infra/init.sql, lines 61-71): one aggregate row
per distinct day of `demo_sessions`, most recent day first. -/
def daily_stats (l : List DemoSession) : List DailyStatsRow :=
  (statDates l).map (statsFor l)

/-- Modelled from the spec: `MetricsAggregator.rebuild(dateRange)` is not
implemented in the repository (only the `daily_stats` view is, and a view is
recomputed on demand); the spec describes `rebuild` as replaying all
SessionRecords in the range and recomputing the DailyMetrics rows of that
range from scratch. The aggregation itself is the `daily_stats` view from
src/infra/init.sql. -/
def rebuild (lo hi : ℤ) (ledger : List DemoSession) (rows : List DailyStatsRow) :
    List DailyStatsRow :=
  (rows.filter fun row => !decide (lo ≤ row.date ∧ row.date ≤ hi)) ++
    daily_stats (ledger.filter fun s =>
      decide (lo ≤ dateOf s.created_at ∧ dateOf s.created_at ≤ hi))

/-- The error of `CacheStore.put` on a hash that already holds a different
result (spec section 7). -/
inductive PutError where
  | conflict
  deriving DecidableEq

/-- The errors of `SessionLedger.append`: `duplicateSession` is the UNIQUE
violation on `session_id`, `valueTooLong` is the `VARCHAR(16)` length
violation (src/infra/init.sql, line 10). -/
inductive AppendError where
  | duplicateSession
  | valueTooLong
  deriving DecidableEq

namespace CacheStore

/-- Lookup of the unique `extraction_cache` row for a hash. -/
def findEntry (h : String) (store : List CacheEntry) : Option CacheEntry :=
  store.find? fun e => e.file_hash == h

/-- Modelled from the spec: `CacheStore.put(contentHash, result, confidence)`
is not implemented in the repository; only the `extraction_cache` schema is.
Per the spec it fails with `ConflictError` when the hash already holds a
different result, succeeds as a no-op when the stored result is identical
(payload equality, ignoring confidence), and otherwise inserts a fresh row
with the schema defaults `accessed_at = created_at = now`, `access_count = 1`. -/
def put (now : ℤ) (h r : String) (c : Option ℚ) (store : List CacheEntry) :
    Except PutError (List CacheEntry) :=
  match findEntry h store with
  | some e => if e.extraction_result = r then .ok store else .error .conflict
  | none => .ok (store ++ [⟨h, r, c, now, now, 1⟩])

/-- The read-and-touch update of a hit: `access_count` incremented,
`accessed_at` refreshed. -/
def touch (t : ℤ) (e : CacheEntry) : CacheEntry :=
  { e with accessed_at := t, access_count := e.access_count + 1 }

/-- The time of the last `get` of a sequence at times `ts`, with `d` the
`accessed_at` value standing when the sequence starts. -/
def lastTime (d : ℤ) (ts : List ℤ) : ℤ :=
  ts.foldl (fun _ t => t) d

/-- Modelled from the spec: `CacheStore.get(contentHash)` is not implemented
in the repository; only the `extraction_cache` schema is. Per the spec a hit
returns the entry and, atomically with the read, increments `access_count`
and refreshes `lastAccessedAt`; a miss returns the store unchanged. -/
def get (t : ℤ) (h : String) (store : List CacheEntry) :
    Option CacheEntry × List CacheEntry :=
  match findEntry h store with
  | some e =>
    (some (touch t e), store.map fun x => if x.file_hash == h then touch t x else x)
  | none => (none, store)

/-- A sequence of `get` calls for hash `h`, one at each time of `ts`,
threading the store. -/
def getMany (ts : List ℤ) (h : String) (store : List CacheEntry) :
    List CacheEntry :=
  ts.foldl (fun st t => (get t h st).2) store

end CacheStore

/-- Modelled from the spec: `SessionLedger.append(record)` is not implemented
in the repository; its behaviour is fixed by the `demo_sessions` schema
(src/infra/init.sql, line 10): `session_id VARCHAR(16)` rejects an id longer
than 16 characters, and `UNIQUE` rejects a duplicate id; an accepted row is
stored verbatim (the schema has no range CHECK constraints). -/
def append (r : DemoSession) (ledger : List DemoSession) :
    Except AppendError (List DemoSession) :=
  if 16 < r.session_id.length then .error .valueTooLong
  else if ledger.any fun s => s.session_id == r.session_id then
    .error .duplicateSession
  else .ok (ledger ++ [r])

/-! Concrete rows used to instantiate the theorems below. -/

/-- A successful session on 2025-01-01 (day 20089) with latency 100 ms. -/
def sessA : DemoSession :=
  { session_id := "a", file_name := "a.pdf", file_size := 1, file_hash := none,
    extraction_success := true, jira_ticket_created := false,
    jira_ticket_key := none, quality_score := none, latency_ms := some 100,
    error_message := none, ip_address := none, user_agent := none,
    created_at := 1735689600 }

/-- A successful session on 2025-01-01 with latency 200 ms. -/
def sessB : DemoSession :=
  { sessA with session_id := "b", latency_ms := some 200, created_at := 1735693200 }

/-- A failed session on 2025-01-01 with latency 300 ms. -/
def sessC : DemoSession :=
  { sessA with
    session_id := "c"
    extraction_success := false
    latency_ms := some 300
    created_at := 1735696800 }

/-- A failed session that nevertheless created a Jira ticket: the schema
allows `jira_ticket_created = true` with `extraction_success = false`. -/
def badSession : DemoSession :=
  { sessA with
    session_id := "bad"
    extraction_success := false
    jira_ticket_created := true
    latency_ms := none
    created_at := 0 }

/-- A record the spec calls malformed: negative `file_size` and a
`quality_score` above 1. The schema has no CHECK constraint against either. -/
def negRecord : DemoSession :=
  { sessA with
    session_id := "neg1"
    file_size := -5
    quality_score := some 2
    created_at := 0 }

/-- A session id of exactly 16 characters. -/
def sess16 : DemoSession :=
  { sessA with session_id := "abcdefghijklmnop" }

/-- A session id of 17 characters, one over the `VARCHAR(16)` bound. -/
def sess17 : DemoSession :=
  { sessA with session_id := "abcdefghijklmnopq" }

/-- A session created at time 0, far outside the 30-day window at the
reference time `nowW`. -/
def oldSession : DemoSession :=
  { sessA with session_id := "old", created_at := 0 }

/-- A session created one hour before `nowW`, referencing the hash of
`staleEntry`. -/
def refSession : DemoSession :=
  { sessA with
    session_id := "ref"
    file_hash := some "stale"
    created_at := 99996400 }

/-- A cache entry last accessed 10 days before `nowW`. -/
def staleEntry : CacheEntry :=
  ⟨"stale", "R0", none, 0, 99136000, 4⟩

/-- A cache entry accessed just before `nowW`. -/
def freshEntry : CacheEntry :=
  ⟨"fresh", "R1", none, 99999000, 99999000, 1⟩

/-- A metrics row written at time 0, far older than one year at `nowW`. -/
def oldMetric : QualityMetricsRow :=
  ⟨0, 1, 1, none, none, 0, 0, 0⟩

/-- A metrics row written just before `nowW`. -/
def freshMetric : QualityMetricsRow :=
  ⟨20089, 3, 2, none, none, 0, 0, 99999990⟩

/-- The reference time of the retention witnesses (about 1159 days). -/
def nowW : ℤ := 100000000

/-- The database state the retention witnesses run the cleanup on. -/
def dbW : DbState :=
  { sessions := [oldSession, refSession], cache := [staleEntry, freshEntry],
    metrics := [oldMetric, freshMetric] }

/-- The cache entry of the `put`/`get` witnesses. -/
def entryW : CacheEntry := ⟨"h1", "A", some 1, 0, 0, 1⟩

/-! Retention: membership across `cleanup_old_data`. -/

theorem mem_cleanup_sessions (now : ℤ) (db : DbState) (s : DemoSession) :
    s ∈ (cleanup_old_data now db).sessions ↔
      s ∈ db.sessions ∧ now - thirtyDays ≤ s.created_at := by
  simp [cleanup_old_data, List.mem_filter, not_lt]

theorem mem_cleanup_cache (now : ℤ) (db : DbState) (e : CacheEntry) :
    e ∈ (cleanup_old_data now db).cache ↔
      e ∈ db.cache ∧ now - sevenDays ≤ e.accessed_at := by
  simp [cleanup_old_data, List.mem_filter, not_lt]

theorem mem_cleanup_metrics (now : ℤ) (db : DbState) (m : QualityMetricsRow) :
    m ∈ (cleanup_old_data now db).metrics ↔
      m ∈ db.metrics ∧ now - oneYear ≤ m.created_at := by
  simp [cleanup_old_data, List.mem_filter, not_lt]

/-- C4: `cleanup_old_data` keeps a session exactly when its `created_at` is
within the 30-day window, keeps a metrics row exactly when its `created_at`
is within the 1-year window, and keeps a cache entry exactly when its
`accessed_at` is within the 7-day window: every row beyond its window is
deleted and no row is deleted before its window has elapsed. -/
theorem cleanup_retention_windows (now : ℤ) (db : DbState) :
    (∀ s, s ∈ (cleanup_old_data now db).sessions ↔
      s ∈ db.sessions ∧ now - thirtyDays ≤ s.created_at) ∧
    (∀ m, m ∈ (cleanup_old_data now db).metrics ↔
      m ∈ db.metrics ∧ now - oneYear ≤ m.created_at) ∧
    (∀ e, e ∈ (cleanup_old_data now db).cache ↔
      e ∈ db.cache ∧ now - sevenDays ≤ e.accessed_at) :=
  ⟨mem_cleanup_sessions now db, mem_cleanup_metrics now db,
    mem_cleanup_cache now db⟩

/-- C4 witness: at time `nowW` the cleanup of `dbW` drops the session and the
metrics row older than their windows and keeps the recent ones. -/
theorem cleanup_retention_windows_witness :
    oldSession ∉ (cleanup_old_data nowW dbW).sessions ∧
    refSession ∈ (cleanup_old_data nowW dbW).sessions ∧
    oldMetric ∉ (cleanup_old_data nowW dbW).metrics ∧
    freshMetric ∈ (cleanup_old_data nowW dbW).metrics :=
  ⟨fun hmem => absurd (((cleanup_retention_windows nowW dbW).1 oldSession).mp hmem).2
      (by decide),
    ((cleanup_retention_windows nowW dbW).1 refSession).mpr ⟨by decide, by decide⟩,
    fun hmem => absurd (((cleanup_retention_windows nowW dbW).2.1 oldMetric).mp hmem).2
      (by decide),
    ((cleanup_retention_windows nowW dbW).2.1 freshMetric).mpr ⟨by decide, by decide⟩⟩

/-- C5: after `cleanup_old_data`, a cache entry is present exactly when its
`accessed_at` is within the 7-day window — its `created_at` plays no role —
and a session within its own 30-day window stays present even when the cache
entry its `file_hash` references has been evicted. -/
theorem cleanup_cache_lru (now : ℤ) (db : DbState) :
    (∀ e, e ∈ (cleanup_old_data now db).cache ↔
      e ∈ db.cache ∧ now - sevenDays ≤ e.accessed_at) ∧
    (∀ s, s ∈ db.sessions → now - thirtyDays ≤ s.created_at →
      s ∈ (cleanup_old_data now db).sessions) :=
  ⟨mem_cleanup_cache now db,
    fun s hs hw => (mem_cleanup_sessions now db s).mpr ⟨hs, hw⟩⟩

/-- C5 witness: the spec scenario at `nowW`: `staleEntry` was last accessed 10
days ago (though created at time 0 would also be stale, `freshEntry` created
long ago but accessed recently survives), so it is evicted, while
`refSession`, which references its hash, is still present. -/
theorem cleanup_cache_lru_witness :
    staleEntry ∉ (cleanup_old_data nowW dbW).cache ∧
    freshEntry ∈ (cleanup_old_data nowW dbW).cache ∧
    refSession.file_hash = some staleEntry.file_hash ∧
    refSession ∈ (cleanup_old_data nowW dbW).sessions :=
  ⟨fun hmem => absurd (((cleanup_cache_lru nowW dbW).1 staleEntry).mp hmem).2
      (by decide),
    ((cleanup_cache_lru nowW dbW).1 freshEntry).mpr ⟨by decide, by decide⟩,
    rfl,
    (cleanup_cache_lru nowW dbW).2 refSession (by decide) (by decide)⟩

/-! The ledger `append`: schema constraints of `demo_sessions`. -/

theorem append_tooLong (r : DemoSession) (L : List DemoSession)
    (h : 16 < r.session_id.length) : append r L = .error .valueTooLong := by
  simp [append, h]

theorem append_ok_of (r : DemoSession) (L : List DemoSession)
    (hlen : r.session_id.length ≤ 16)
    (hfresh : ∀ s ∈ L, s.session_id ≠ r.session_id) :
    append r L = .ok (L ++ [r]) := by
  have h1 : ¬ 16 < r.session_id.length := not_lt.mpr hlen
  have h2 : (L.any fun s => s.session_id == r.session_id) = false := by
    rw [List.any_eq_false]
    intro s hs
    simp [hfresh s hs]
  simp [append, h1, h2]

theorem append_dup_iff (r : DemoSession) (L : List DemoSession)
    (hinv : ∀ s ∈ L, s.session_id.length ≤ 16) :
    append r L = .error .duplicateSession ↔
      ∃ s ∈ L, s.session_id = r.session_id := by
  by_cases hlen : 16 < r.session_id.length
  · rw [append_tooLong r L hlen]
    constructor
    · intro h
      exact absurd h (by simp)
    · rintro ⟨s, hs, he⟩
      have := hinv s hs
      rw [he] at this
      omega
  · push_neg at hlen
    by_cases hdup : ∃ s ∈ L, s.session_id = r.session_id
    · obtain ⟨s, hs, he⟩ := hdup
      have h2 : (L.any fun s => s.session_id == r.session_id) = true := by
        rw [List.any_eq_true]
        exact ⟨s, hs, by simp [he]⟩
      simp only [append, if_neg (not_lt.mpr hlen), h2, if_true]
      exact ⟨fun _ => ⟨s, hs, he⟩, fun _ => trivial⟩
    · rw [append_ok_of r L hlen (by simpa [not_exists] using fun s hs he => hdup ⟨s, hs, he⟩)]
      constructor
      · intro h
        exact absurd h (by simp)
      · intro h
        exact absurd h hdup

/-- C8: over a ledger whose stored ids respect the schema bound, `append`
fails with the duplicate-session error exactly when a row with the same
`session_id` is already present; a successful `append` keeps every existing
row unchanged, and the only deleting operation, `cleanup_old_data`, never
rewrites a surviving row. -/
theorem append_duplicate_iff_immutable (r : DemoSession) (L : List DemoSession)
    (hinv : ∀ s ∈ L, s.session_id.length ≤ 16) :
    (append r L = .error .duplicateSession ↔
      ∃ s ∈ L, s.session_id = r.session_id) ∧
    (∀ L2, append r L = .ok L2 → ∀ s ∈ L, s ∈ L2) ∧
    (∀ now db, ∀ s ∈ (cleanup_old_data now db).sessions, s ∈ db.sessions) := by
  refine ⟨append_dup_iff r L hinv, ?_, ?_⟩
  · intro L2 hok s hs
    unfold append at hok
    by_cases h1 : 16 < r.session_id.length
    · rw [if_pos h1] at hok
      cases hok
    · rw [if_neg h1] at hok
      by_cases h2 : (L.any fun s => s.session_id == r.session_id) = true
      · rw [if_pos h2] at hok
        cases hok
      · rw [if_neg h2] at hok
        cases hok
        exact List.mem_append_left _ hs
  · intro now db s hs
    exact ((mem_cleanup_sessions now db s).mp hs).1

/-- C8 witness: appending a record reusing the id of `sessA` to the ledger
`[sessA]` fails with the duplicate error, and a successful append of `sessB`
keeps `sessA` in place. -/
theorem append_duplicate_iff_immutable_witness :
    append sessA [sessA] = .error .duplicateSession ∧
    ∀ L2, append sessB [sessA] = .ok L2 → sessA ∈ L2 :=
  ⟨((append_duplicate_iff_immutable sessA [sessA] (by decide)).1).mpr
      ⟨sessA, by decide, rfl⟩,
    fun L2 hok =>
      (append_duplicate_iff_immutable sessB [sessA] (by decide)).2.1 L2 hok sessA
        (by decide)⟩

/-- C9 counterexample: `negRecord` has `file_size = -5` and
`quality_score = 2`, yet `append` accepts it and stores the row — the
`demo_sessions` schema has no CHECK constraint, so no `ValidationError`
exists that would reject it, contrary to the claim. -/
theorem append_stores_malformed_record :
    append negRecord [] = .ok [negRecord] ∧
    negRecord.file_size < 0 ∧ negRecord.quality_score = some 2 :=
  ⟨rfl, by decide, rfl⟩

/-- C9 amended: `append` performs no range validation at all: any record whose
`session_id` respects the `VARCHAR(16)` bound and is fresh is stored verbatim,
whatever its `file_size`, `quality_score` or confidence values — the schema
enforces only NOT NULL, uniqueness and the length bound. -/
theorem append_no_range_validation (r : DemoSession) (L : List DemoSession)
    (hlen : r.session_id.length ≤ 16)
    (hfresh : ∀ s ∈ L, s.session_id ≠ r.session_id) :
    append r L = .ok (L ++ [r]) :=
  append_ok_of r L hlen hfresh

/-- C9 witness: the amended theorem applied to the malformed record. -/
theorem append_no_range_validation_witness :
    append negRecord [sessA] = .ok ([sessA] ++ [negRecord]) :=
  append_no_range_validation negRecord [sessA] (by decide) (by decide)

/-- C10: `append` rejects a `session_id` longer than 16 characters with the
length error — the `VARCHAR(16)` bound of src/infra/init.sql line 10 — and
accepts any fresh id of at most 16 characters, so the bound is exactly 16. -/
theorem append_length_bound (r : DemoSession) (L : List DemoSession) :
    (16 < r.session_id.length → append r L = .error .valueTooLong) ∧
    (r.session_id.length ≤ 16 → (∀ s ∈ L, s.session_id ≠ r.session_id) →
      append r L = .ok (L ++ [r])) :=
  ⟨append_tooLong r L, append_ok_of r L⟩

/-- C10 witness: a 17-character id is rejected with the length error and a
16-character id is stored. -/
theorem append_length_bound_witness :
    append sess17 [] = .error .valueTooLong ∧
    append sess16 [] = .ok ([] ++ [sess16]) :=
  ⟨(append_length_bound sess17 []).1 (by decide),
    (append_length_bound sess16 []).2 (by decide) (by decide)⟩

/-! The cache: `put` conflict semantics and read-and-touch `get`. -/

namespace CacheStore

/-- C1: for a hash that already holds an entry `e`, `put` fails with the
conflict error exactly when the new result differs from the stored one; a
byte-identical result makes `put` a strict no-op: the store is returned
unchanged, so no row is added and no `access_count` moves. -/
theorem put_conflict_iff (now : ℤ) (h r2 : String) (c2 : Option ℚ)
    (store : List CacheEntry) (e : CacheEntry)
    (he : findEntry h store = some e) :
    (put now h r2 c2 store = .error .conflict ↔ r2 ≠ e.extraction_result) ∧
    (r2 = e.extraction_result → put now h r2 c2 store = .ok store) := by
  have hput : put now h r2 c2 store =
      if e.extraction_result = r2 then .ok store else .error .conflict := by
    simp [put, he]
  by_cases hcase : e.extraction_result = r2
  · rw [hput, if_pos hcase]
    exact ⟨⟨fun hc => absurd hc (by simp), fun hne => absurd hcase.symm hne⟩,
      fun _ => rfl⟩
  · rw [hput, if_neg hcase]
    exact ⟨⟨fun _ hne => hcase hne.symm, fun _ => rfl⟩,
      fun heq => absurd heq.symm hcase⟩

/-- C1 witness: on a store holding `("h1", "A")`, putting `"B"` conflicts and
re-putting `"A"` is a no-op returning the store unchanged. -/
theorem put_conflict_iff_witness :
    put 5 "h1" "B" none [entryW] = .error .conflict ∧
    put 5 "h1" "A" none [entryW] = .ok [entryW] :=
  ⟨((put_conflict_iff 5 "h1" "B" none [entryW] entryW rfl).1).mpr (by decide),
    (put_conflict_iff 5 "h1" "A" none [entryW] entryW rfl).2 rfl⟩

theorem findEntry_append_right (h : String) (store : List CacheEntry)
    (e : CacheEntry) (hnone : findEntry h store = none)
    (hh : (e.file_hash == h) = true) :
    findEntry h (store ++ [e]) = some e := by
  induction store with
  | nil => simp [findEntry, List.find?_cons, hh]
  | cons x xs ih =>
    rw [List.cons_append]
    unfold findEntry at hnone ⊢
    rw [List.find?_cons] at hnone ⊢
    cases hx : (x.file_hash == h) with
    | true =>
      simp only [hx] at hnone
      cases hnone
    | false =>
      simp only [hx] at hnone ⊢
      exact ih hnone

theorem findEntry_touchMap (t : ℤ) (h : String) (store : List CacheEntry) :
    findEntry h (store.map fun x => if x.file_hash == h then touch t x else x) =
      (findEntry h store).map (touch t) := by
  induction store with
  | nil => rfl
  | cons x xs ih =>
    unfold findEntry at ih ⊢
    rw [List.map_cons, List.find?_cons, List.find?_cons]
    cases hx : (x.file_hash == h) with
    | true => simp [touch, hx]
    | false => simpa [hx] using ih

theorem get_hit (t : ℤ) (h : String) (store : List CacheEntry) (e : CacheEntry)
    (he : findEntry h store = some e) :
    (get t h store).1 = some (touch t e) ∧
    findEntry h (get t h store).2 = some (touch t e) := by
  refine ⟨by simp [get, he], ?_⟩
  have h2 : (get t h store).2 =
      store.map fun x => if x.file_hash == h then touch t x else x := by
    simp [get, he]
  rw [h2, findEntry_touchMap, he]
  rfl

theorem getMany_entry (h : String) :
    ∀ (ts : List ℤ) (store : List CacheEntry) (e : CacheEntry),
      findEntry h store = some e →
      findEntry h (getMany ts h store) =
        some ⟨e.file_hash, e.extraction_result, e.confidence_score,
          e.created_at, lastTime e.accessed_at ts,
          e.access_count + ts.length⟩ := by
  intro ts
  induction ts with
  | nil =>
    intro store e he
    exact he
  | cons t ts ih =>
    intro store e he
    have hstep : findEntry h (get t h store).2 = some (touch t e) :=
      (get_hit t h store e he).2
    have hrec := ih (get t h store).2 (touch t e) hstep
    have harith : e.access_count + 1 + ts.length =
        e.access_count + (ts.length + 1) := by omega
    calc findEntry h (getMany (t :: ts) h store)
        = findEntry h (getMany ts h (get t h store).2) := rfl
      _ = some ⟨e.file_hash, e.extraction_result, e.confidence_score,
            e.created_at, lastTime t ts, e.access_count + 1 + ts.length⟩ := hrec
      _ = some ⟨e.file_hash, e.extraction_result, e.confidence_score,
            e.created_at, lastTime e.accessed_at (t :: ts),
            e.access_count + (t :: ts).length⟩ := by
          rw [harith]
          rfl

/-- C2: after a fresh `put(H, R, C)`, any sequence of `get(H)` calls leaves an
entry that still carries exactly `R` and `C`, whose `access_count` grew by
exactly one per call from the schema default 1, and whose `accessed_at` is the
time of the last call; one further `get` at time `t` returns `R` and `C`
unchanged, `accessed_at` refreshed to `t`, and the count bumped once more. -/
theorem cache_get_after_put (h r : String) (c : Option ℚ) (now : ℤ)
    (store store1 : List CacheEntry) (ts : List ℤ) (t : ℤ)
    (hfresh : findEntry h store = none)
    (hok : put now h r c store = .ok store1) :
    findEntry h (getMany ts h store1) =
      some ⟨h, r, c, now, lastTime now ts, 1 + ts.length⟩ ∧
    (get t h (getMany ts h store1)).1 =
      some ⟨h, r, c, now, t, 1 + ts.length + 1⟩ := by
  have hstore1 : store1 = store ++ [⟨h, r, c, now, now, 1⟩] := by
    simp [put, hfresh] at hok
    exact hok.symm
  have hfind : findEntry h store1 = some ⟨h, r, c, now, now, 1⟩ := by
    rw [hstore1]
    exact findEntry_append_right h store _ hfresh (by simp)
  have hmany := getMany_entry h ts store1 _ hfind
  refine ⟨hmany, ?_⟩
  rw [(get_hit t h (getMany ts h store1) _ hmany).1]
  rfl

/-- C2 witness: put `("h1", "R")` at time 0 into the empty store, read it at
time 5 and again at time 9: the entry still carries the result and the
confidence, the count is 2 after the first read and 3 after the second, and
each read refreshed `accessed_at` to its own time. -/
theorem cache_get_after_put_witness :
    findEntry "h1" (getMany [5] "h1" [⟨"h1", "R", none, 0, 0, 1⟩]) =
      some ⟨"h1", "R", none, 0, lastTime 0 [5], 1 + [(5 : ℤ)].length⟩ ∧
    (get 9 "h1" (getMany [5] "h1" [⟨"h1", "R", none, 0, 0, 1⟩])).1 =
      some ⟨"h1", "R", none, 0, 9, 1 + [(5 : ℤ)].length + 1⟩ :=
  cache_get_after_put "h1" "R" none 0 [] [⟨"h1", "R", none, 0, 0, 1⟩] [5] 9
    rfl rfl

end CacheStore

/-! The `daily_stats` view and the spec's `rebuild`. -/

/-- C3 counterexample: a single session that failed extraction but created a
Jira ticket yields a `daily_stats` row with `jira_tickets = 1` and
`successful_extractions = 0`, so the claimed invariant
`sideEffectCount ≤ successCount` fails on the view. -/
theorem daily_stats_side_effect_cex :
    ¬ ∀ row ∈ daily_stats [badSession],
      row.successful_extractions ≤ row.total_sessions ∧
      row.jira_tickets ≤ row.successful_extractions := by
  decide

/-- C3 amended: for every ledger, every `daily_stats` row satisfies
`successCount ≤ totalCount` and `sideEffectCount ≤ totalCount`; the second
claimed bound, `sideEffectCount ≤ successCount`, does not hold because the
schema allows `jira_ticket_created` without `extraction_success`. -/
theorem daily_stats_count_bounds (l : List DemoSession) :
    ∀ row ∈ daily_stats l,
      row.successful_extractions ≤ row.total_sessions ∧
      row.jira_tickets ≤ row.total_sessions := by
  intro row hrow
  simp only [daily_stats, List.mem_map] at hrow
  obtain ⟨d, _, hrfl⟩ := hrow
  subst hrfl
  exact ⟨List.length_filter_le _ _, List.length_filter_le _ _⟩

/-- C3 witness: the amended bounds at the concrete one-session ledger. -/
theorem daily_stats_count_bounds_witness :
    (statsFor [badSession] 0).successful_extractions ≤
      (statsFor [badSession] 0).total_sessions ∧
    (statsFor [badSession] 0).jira_tickets ≤
      (statsFor [badSession] 0).total_sessions :=
  daily_stats_count_bounds [badSession] (statsFor [badSession] 0) (by decide)

/-- C7: three sessions on 2025-01-01 (day 20089) with success flags
true, true, false and latencies 100, 200, 300 ms produce exactly one
`daily_stats` row: totalCount 3, successCount 2, average latency 200. -/
theorem daily_stats_scenario :
    daily_stats [sessA, sessB, sessC] =
      [{ date := 20089, total_sessions := 3, successful_extractions := 2,
          jira_tickets := 0, avg_quality := none,
          avg_latency_ms := some 200 }] := by
  have havg : avgInt [100, 200, 300] = some 200 := by
    simp [avgInt]
    norm_num
  calc daily_stats [sessA, sessB, sessC]
      = [{ date := 20089, total_sessions := 3, successful_extractions := 2,
            jira_tickets := 0, avg_quality := none,
            avg_latency_ms := avgInt [100, 200, 300] }] := rfl
    _ = [{ date := 20089, total_sessions := 3, successful_extractions := 2,
            jira_tickets := 0, avg_quality := none,
            avg_latency_ms := some 200 }] := by rw [havg]

theorem mem_statDates (l : List DemoSession) (d : ℤ) (hd : d ∈ statDates l) :
    ∃ s ∈ l, dateOf s.created_at = d := by
  unfold statDates at hd
  rw [List.mem_insertionSort, List.mem_dedup] at hd
  simpa using hd

theorem daily_stats_range_dates (lo hi : ℤ) (ledger : List DemoSession) :
    ∀ row ∈ daily_stats (ledger.filter fun s =>
        decide (lo ≤ dateOf s.created_at ∧ dateOf s.created_at ≤ hi)),
      lo ≤ row.date ∧ row.date ≤ hi := by
  intro row hrow
  simp only [daily_stats, List.mem_map] at hrow
  obtain ⟨d, hd, hrfl⟩ := hrow
  obtain ⟨s, hs, hdate⟩ := mem_statDates _ _ hd
  have hmem := List.mem_filter.mp hs
  have hcond := of_decide_eq_true hmem.2
  rw [hdate] at hcond
  subst hrfl
  exact hcond

/-- C6: `rebuild` over the same ledger is idempotent: applying it a second
time replaces the rows of the range with the identical recomputation from the
ledger, so the output is unchanged row for row. -/
theorem rebuild_idempotent (lo hi : ℤ) (ledger : List DemoSession)
    (rows : List DailyStatsRow) :
    rebuild lo hi ledger (rebuild lo hi ledger rows) =
      rebuild lo hi ledger rows := by
  unfold rebuild
  rw [List.filter_append]
  have hkept : ((rows.filter fun row => !decide (lo ≤ row.date ∧ row.date ≤ hi)).filter
        fun row => !decide (lo ≤ row.date ∧ row.date ≤ hi)) =
      rows.filter fun row => !decide (lo ≤ row.date ∧ row.date ≤ hi) :=
    List.filter_eq_self.mpr fun a ha => (List.mem_filter.mp ha).2
  have hnew : ((daily_stats (ledger.filter fun s =>
        decide (lo ≤ dateOf s.created_at ∧ dateOf s.created_at ≤ hi))).filter
        fun row => !decide (lo ≤ row.date ∧ row.date ≤ hi)) = [] := by
    rw [List.filter_eq_nil_iff]
    intro row hrow
    simp [daily_stats_range_dates lo hi ledger row hrow]
  rw [hkept, hnew, List.append_nil]
